import Mathlib

/-!
# Verification of the JobScraper pipeline (src/main.py)

Shallow embedding of the discovery-classification-deduplication pipeline:
the `JobRanker` classifier, the per-source `parse_job` element mappers, the
seen-set dedup store (`load_seen_jobs` / `save_seen_jobs` / the dedup loop of
`run_daily_scrape_async`), and the `acquire_lock` run lock.  Python strings
are modelled as Lean `String` (the rule data is ASCII, where `Char.toLower`
agrees with `str.lower`), Python sets of urls as `Finset String`, and the
I/O boundaries (file system, JSON parsing, network, webhook) as explicit
inputs or event traces.
-/

set_option maxHeartbeats 1000000

/-- `JobPriority` enum of src/main.py. -/
inductive JobPriority where
  | PERFECT_MATCH
  | GOOD_MATCH
  | WEAK_MATCH
  | BLACKLISTED
deriving DecidableEq, Repr

/-- `Job` dataclass of src/main.py. -/
structure Job where
  title : String
  company : String
  url : String
  description : String
  source : String
  priority : JobPriority
  priority_reason : String
  posted_date : Option String := none
deriving DecidableEq, Repr

/-! ## Python string primitives used by the ranker and parsers -/

/-- `needle` occurs at the start of `hay` (on character lists). -/
def charListHasPre : List Char → List Char → Bool
  | [], _ => true
  | _ :: _, [] => false
  | a :: as, b :: bs => a == b && charListHasPre as bs

/-- `needle` occurs somewhere in `hay` (on character lists). -/
def charListHasSub (needle : List Char) : List Char → Bool
  | [] => charListHasPre needle []
  | b :: bs => charListHasPre needle (b :: bs) || charListHasSub needle bs

/-- Python's substring operator `needle in hay` on strings. -/
def strContains (hay needle : String) : Bool :=
  charListHasSub needle.data hay.data

/-- Python `s.lower()` (the texts involved are ASCII, where `Char.toLower`
agrees with it). -/
def pyLower (s : String) : String :=
  ⟨s.data.map Char.toLower⟩

/-- Python `s.strip()`: drop leading and trailing whitespace. -/
def pyStrip (s : String) : String :=
  ⟨((s.data.dropWhile Char.isWhitespace).reverse.dropWhile Char.isWhitespace).reverse⟩

/-- Python `s[:n]` (slicing counts code points, like `List Char`). -/
def pyTake (s : String) (n : Nat) : String :=
  ⟨s.data.take n⟩

/-- Python `s.startswith(pre)`. -/
def pyStartsWith (s pre : String) : Bool :=
  charListHasPre pre.data s.data

/-- Split a character list at every occurrence of one separator character.
`Python "".split(c) = ['']` likewise yields `[[]]`. -/
def splitOnChar (sep : Char) : List Char → List (List Char)
  | [] => [[]]
  | c :: rest =>
    let r := splitOnChar sep rest
    if c = sep then [] :: r
    else match r with
      | [] => [[c]]
      | h :: t => (c :: h) :: t

/-- Python `s.split(sep)` for a one-character separator. -/
def pySplitOnChar (sep : Char) (s : String) : List String :=
  (splitOnChar sep s.data).map fun l => String.mk l

/-- Split a character list at every character satisfying `p` (empty pieces
kept). -/
def splitOnPredChar (p : Char → Bool) : List Char → List (List Char)
  | [] => [[]]
  | c :: rest =>
    let r := splitOnPredChar p rest
    if p c then [] :: r
    else match r with
      | [] => [[c]]
      | h :: t => (c :: h) :: t

/-- Python `s.split()`: split on whitespace runs, dropping empty pieces. -/
def pySplitWs (s : String) : List String :=
  ((splitOnPredChar Char.isWhitespace s.data).map fun l => String.mk l).filter
    fun w => w ≠ ""

/-- The part before and the part after the first occurrence of `sep`
(`none` when `sep` does not occur). -/
def breakOnFirst (sep : List Char) : List Char → Option (List Char × List Char)
  | [] => if sep.isEmpty then some ([], []) else none
  | c :: rest =>
    if charListHasPre sep (c :: rest) then
      some ([], List.drop sep.length (c :: rest))
    else match breakOnFirst sep rest with
      | none => none
      | some (pre, post) => some (c :: pre, post)

/-- Python `s.split(sep, 1)` when `sep` occurs in `s`: the part before the
first occurrence and the rest. -/
def splitFirstOn (sep s : String) : String × String :=
  match breakOnFirst sep.data s.data with
  | some (pre, post) => (String.mk pre, String.mk post)
  | none => (s, "")

/-! ## JobRanker (src/main.py lines 72-154) -/

/-- `JobRanker.PERFECT_TITLES`. -/
def PERFECT_TITLES : List String :=
  ["junior devops", "sysadmin", "system administrator",
   "l2 support", "level 2 support", "infrastructure engineer",
   "node operator", "node operations"]

/-- `JobRanker.PERFECT_KEYWORDS['linux']`. -/
def PERFECT_KEYWORDS_LINUX : List String := ["linux", "ubuntu"]

/-- `JobRanker.PERFECT_KEYWORDS['scripting']`. -/
def PERFECT_KEYWORDS_SCRIPTING : List String := ["python", "bash", "shell scripting"]

/-- `JobRanker.GOOD_TITLES`. -/
def GOOD_TITLES : List String :=
  ["it support", "technical support", "datacenter technician",
   "it operations", "operations engineer", "support engineer"]

/-- `JobRanker.GOOD_KEYWORDS`. -/
def GOOD_KEYWORDS : List String :=
  ["hardware", "repair", "network", "networking", "tickets",
   "on-site", "onsite", "equipment", "server maintenance"]

/-- `JobRanker.BLACKLIST_TITLES`. -/
def BLACKLIST_TITLES : List String :=
  ["senior solidity developer", "marketing", "sales", "hr",
   "human resources", "legal", "lawyer", "attorney"]

/-- `JobRanker.BLACKLIST_KEYWORDS`. -/
def BLACKLIST_KEYWORDS : List String :=
  ["senior solidity", "marketing manager", "sales manager",
   "hr manager", "legal counsel"]

/-- `JobRanker.normalize_text`: `text.lower().strip()`. -/
def normalize_text (text : String) : String :=
  pyStrip (pyLower text)

/-- `JobRanker.contains_keywords`: any keyword (lower-cased) is a substring of
the normalized text. -/
def contains_keywords (text : String) (keywords : List String) : Bool :=
  keywords.any fun keyword => strContains (normalize_text text) (pyLower keyword)

/-- The `combined` string built by `rank_job`:
`f"{title_lower} {desc_lower}"`. -/
def combinedOf (title description : String) : String :=
  normalize_text title ++ " " ++ normalize_text description

/-- `JobRanker.rank_job` (src/main.py lines 117-154), rule for rule. -/
def rank_job (title description : String) : JobPriority × String :=
  let title_lower := normalize_text title
  let combined := combinedOf title description
  if contains_keywords combined BLACKLIST_TITLES then
    (JobPriority.BLACKLISTED, "Contains blacklisted title/keyword")
  else if contains_keywords combined BLACKLIST_KEYWORDS then
    (JobPriority.BLACKLISTED, "Contains blacklisted keyword")
  else if contains_keywords title_lower PERFECT_TITLES
      && contains_keywords combined PERFECT_KEYWORDS_LINUX
      && contains_keywords combined PERFECT_KEYWORDS_SCRIPTING then
    (JobPriority.PERFECT_MATCH, "Perfect match: Title + Linux + Python/Bash")
  else if contains_keywords title_lower GOOD_TITLES
      || contains_keywords combined GOOD_KEYWORDS then
    (JobPriority.GOOD_MATCH, "Good match: IT Support/Hardware/Network keywords")
  else if strContains combined "customer support" || strContains title_lower "support" then
    (JobPriority.WEAK_MATCH, "Generic support role")
  else
    (JobPriority.WEAK_MATCH, "No strong match criteria")

/-- The first component of `rank_job`, with the two blacklist tests merged and
the two `WEAK_MATCH` tails collapsed. -/
theorem rank_job_fst_eq (title description : String) :
    (rank_job title description).1 =
      (if contains_keywords (combinedOf title description) BLACKLIST_TITLES
          || contains_keywords (combinedOf title description) BLACKLIST_KEYWORDS then
        JobPriority.BLACKLISTED
      else if contains_keywords (normalize_text title) PERFECT_TITLES
          && contains_keywords (combinedOf title description) PERFECT_KEYWORDS_LINUX
          && contains_keywords (combinedOf title description) PERFECT_KEYWORDS_SCRIPTING then
        JobPriority.PERFECT_MATCH
      else if contains_keywords (normalize_text title) GOOD_TITLES
          || contains_keywords (combinedOf title description) GOOD_KEYWORDS then
        JobPriority.GOOD_MATCH
      else JobPriority.WEAK_MATCH) := by
  unfold rank_job
  cases h1 : contains_keywords (combinedOf title description) BLACKLIST_TITLES <;>
    cases h2 : contains_keywords (combinedOf title description) BLACKLIST_KEYWORDS <;>
    simp [h1, h2] <;>
    (try (split <;> simp_all)) <;>
    (try (split <;> simp_all)) <;>
    (try (split <;> simp_all))

/-- C5: the classifier is total with first-match-wins ordering: every
`(title, description)` pair yields exactly one of the four priorities with a
reason string and no error path, and whenever the normalized combined text
contains a blacklist title-phrase or a blacklist keyword-phrase the result is
`BLACKLISTED`, taking precedence over the perfect-match and good-match rules. -/
theorem claim_C5_classifier_total_and_blacklist_precedence :
    ∀ title description : String,
      ((rank_job title description).1 = JobPriority.PERFECT_MATCH ∨
       (rank_job title description).1 = JobPriority.GOOD_MATCH ∨
       (rank_job title description).1 = JobPriority.WEAK_MATCH ∨
       (rank_job title description).1 = JobPriority.BLACKLISTED) ∧
      ((rank_job title description).2 ≠ "") ∧
      ((contains_keywords (combinedOf title description) BLACKLIST_TITLES = true ∨
        contains_keywords (combinedOf title description) BLACKLIST_KEYWORDS = true) →
        (rank_job title description).1 = JobPriority.BLACKLISTED) := by
  intro title description
  refine ⟨?_, ?_, ?_⟩
  · cases h : (rank_job title description).1 <;> simp
  · unfold rank_job
    dsimp only
    split <;> (try split) <;> (try split) <;> (try split) <;> (try split) <;> decide
  · intro h
    rw [rank_job_fst_eq]
    rcases h with h | h <;> simp [h]

/-- C6: `rank_job` returns `PERFECT_MATCH` iff the input is not blacklisted and
all three facets hold: the normalized title contains a perfect-match title
phrase, and the combined text contains a Linux keyword and a scripting
keyword; with any facet missing the result is never `PERFECT_MATCH`. -/
theorem claim_C6_perfect_match_iff_all_three_facets :
    ∀ title description : String,
      (rank_job title description).1 = JobPriority.PERFECT_MATCH ↔
        (contains_keywords (combinedOf title description) BLACKLIST_TITLES = false ∧
         contains_keywords (combinedOf title description) BLACKLIST_KEYWORDS = false ∧
         contains_keywords (normalize_text title) PERFECT_TITLES = true ∧
         contains_keywords (combinedOf title description) PERFECT_KEYWORDS_LINUX = true ∧
         contains_keywords (combinedOf title description) PERFECT_KEYWORDS_SCRIPTING = true) := by
  intro title description
  rw [rank_job_fst_eq]
  cases h1 : contains_keywords (combinedOf title description) BLACKLIST_TITLES <;>
    cases h2 : contains_keywords (combinedOf title description) BLACKLIST_KEYWORDS <;>
    cases h3 : contains_keywords (normalize_text title) PERFECT_TITLES <;>
    cases h4 : contains_keywords (combinedOf title description) PERFECT_KEYWORDS_LINUX <;>
    cases h5 : contains_keywords (combinedOf title description) PERFECT_KEYWORDS_SCRIPTING <;>
    simp [h1, h2, h3, h4, h5] <;> (try (split <;> simp))

/-! ## DedupStore (src/main.py lines 977-999 and the dedup loop at 1080-1098)

The durable store `seen_jobs.json` holds a JSON array of url strings; the
in-memory set is a `Finset String`.  File-system and JSON outcomes are
explicit inputs: `fileOnDisk` is `os.path.exists`, `readResult` is the result
of `open`/read (`none` = raised), `parseJson` is `json.load` (`none` =
raised). -/

/-- `load_seen_jobs` (src/main.py lines 977-988): if the file exists, read and
parse it and return `set(seen_urls)`; any exception is caught and every other
path returns `set()`. -/
def load_seen_jobs (fileOnDisk : Bool) (readResult : Option String)
    (parseJson : String → Option (List String)) : Finset String :=
  if fileOnDisk then
    match readResult with
    | none => ∅
    | some content =>
      match parseJson content with
      | none => ∅
      | some seen_urls => seen_urls.toFinset
  else ∅

/-- The dedup loop of `run_daily_scrape_async` (src/main.py lines 1081-1088):
jobs whose url is already in `seen_urls` are skipped, the rest are appended to
`new_jobs` in input order and their urls added to `seen_urls`. -/
def dedupFilterNew : List Job → Finset String → List Job × Finset String
  | [], seen_urls => ([], seen_urls)
  | job :: rest, seen_urls =>
    if job.url ∈ seen_urls then dedupFilterNew rest seen_urls
    else
      let r := dedupFilterNew rest (insert job.url seen_urls)
      (job :: r.1, r.2)

/-- One observable event of a pipeline run, for the ordering claims. -/
inductive RunEvent where
  | loadSeen (seen : Finset String)
  | persistSeen (seen : Finset String)
  | notifyAttempt (jobs : List Job) (ok : Bool)
deriving DecidableEq

/-- `e` is a `save_seen_jobs` (persist) event. -/
def isPersistEv : RunEvent → Bool
  | RunEvent.persistSeen _ => true
  | _ => false

/-- `e` is a notification-boundary (Discord webhook) attempt. -/
def isNotifyEv : RunEvent → Bool
  | RunEvent.notifyAttempt _ _ => true
  | _ => false

/-- Result of one pipeline run: its event trace, the list handed to the
notification boundary (`new_jobs`), and the persisted seen set. -/
structure RunResult where
  events : List RunEvent
  newJobs : List Job
  seenOut : Finset String

/-- The body of `run_daily_scrape_async` after `acquire_lock` succeeded
(src/main.py lines 1064-1128): load the seen set, take the scraped jobs,
drop `BLACKLISTED` ones (line 1078), run the dedup loop, call
`save_seen_jobs` on the updated set (line 1098), and only then, when
`new_jobs` is non-empty, attempt the notification (lines 1101-1126).
`scraped` abstracts the network result of `scrape_all_jobs`; `notifyOk`
is whether `DiscordNotifier.send_summary` succeeds — its failure is caught
at line 1111 and only switches to console output. -/
def run_daily_scrape_async (scraped : List Job) (seenStored : Finset String)
    (notifyOk : Bool) : RunResult :=
  let seen_urls := seenStored
  let filtered_jobs := scraped.filter fun job => decide (job.priority ≠ JobPriority.BLACKLISTED)
  let r := dedupFilterNew filtered_jobs seen_urls
  let events := [RunEvent.loadSeen seen_urls, RunEvent.persistSeen r.2] ++
    (if r.1.isEmpty then [] else [RunEvent.notifyAttempt r.1 notifyOk])
  ⟨events, r.1, r.2⟩

/-! ### Dedup-loop lemmas -/

/-- The kept jobs form a sublist (order-preserving selection) of the input. -/
theorem dedupFilterNew_sublist (l : List Job) (s : Finset String) :
    (dedupFilterNew l s).1.Sublist l := by
  induction l generalizing s with
  | nil => simp [dedupFilterNew]
  | cons job rest ih =>
    by_cases h : job.url ∈ s
    · simp only [dedupFilterNew, if_pos h]
      exact (ih s).cons job
    · simp only [dedupFilterNew, if_neg h]
      exact (ih (insert job.url s)).cons₂ job

/-- A kept job's url was not in the incoming seen set. -/
theorem dedupFilterNew_kept_not_seen (l : List Job) (s : Finset String) (j : Job)
    (hj : j ∈ (dedupFilterNew l s).1) : j.url ∉ s := by
  induction l generalizing s with
  | nil => simp [dedupFilterNew] at hj
  | cons job rest ih =>
    by_cases h : job.url ∈ s
    · rw [dedupFilterNew, if_pos h] at hj
      exact ih s hj
    · rw [dedupFilterNew, if_neg h] at hj
      rcases List.mem_cons.mp hj with rfl | hj
      · exact h
      · intro hs
        exact ih (insert job.url s) hj (Finset.mem_insert_of_mem hs)

/-- The incoming seen set is contained in the outgoing one. -/
theorem dedupFilterNew_seen_le (l : List Job) (s : Finset String) :
    s ⊆ (dedupFilterNew l s).2 := by
  induction l generalizing s with
  | nil => simp [dedupFilterNew]
  | cons job rest ih =>
    by_cases h : job.url ∈ s
    · rw [dedupFilterNew, if_pos h]
      exact ih s
    · rw [dedupFilterNew, if_neg h]
      exact fun u hu => ih (insert job.url s) (Finset.mem_insert_of_mem hu)

/-- Every input job's url is in the outgoing seen set. -/
theorem dedupFilterNew_url_mem_out (l : List Job) (s : Finset String) (j : Job)
    (hj : j ∈ l) : j.url ∈ (dedupFilterNew l s).2 := by
  induction l generalizing s with
  | nil => simp at hj
  | cons job rest ih =>
    rcases List.mem_cons.mp hj with rfl | hj
    · by_cases h : j.url ∈ s
      · rw [dedupFilterNew, if_pos h]
        exact dedupFilterNew_seen_le rest s h
      · rw [dedupFilterNew, if_neg h]
        exact dedupFilterNew_seen_le rest _ (Finset.mem_insert_self j.url s)
    · by_cases h : job.url ∈ s
      · rw [dedupFilterNew, if_pos h]
        exact ih s hj
      · rw [dedupFilterNew, if_neg h]
        exact ih (insert job.url s) hj

/-- When every input url is already seen, nothing is kept. -/
theorem dedupFilterNew_all_seen (l : List Job) (s : Finset String)
    (h : ∀ j ∈ l, j.url ∈ s) : (dedupFilterNew l s).1 = [] := by
  induction l generalizing s with
  | nil => rfl
  | cons job rest ih =>
    rw [dedupFilterNew, if_pos (h job (List.mem_cons_self job rest))]
    exact ih s fun j hj => h j (List.mem_cons_of_mem job hj)

/-- Every url of the outgoing seen set was already seen or belongs to an
input job. -/
theorem dedupFilterNew_out_mem (l : List Job) (s : Finset String) (u : String)
    (hu : u ∈ (dedupFilterNew l s).2) : u ∈ s ∨ ∃ j ∈ l, j.url = u := by
  induction l generalizing s with
  | nil => exact Or.inl hu
  | cons job rest ih =>
    by_cases h : job.url ∈ s
    · rw [dedupFilterNew, if_pos h] at hu
      rcases ih s hu with hs | ⟨j, hj, hju⟩
      · exact Or.inl hs
      · exact Or.inr ⟨j, List.mem_cons_of_mem job hj, hju⟩
    · rw [dedupFilterNew, if_neg h] at hu
      rcases ih (insert job.url s) hu with hs | ⟨j, hj, hju⟩
      · rcases Finset.mem_insert.mp hs with rfl | hs
        · exact Or.inr ⟨job, List.mem_cons_self job rest, rfl⟩
        · exact Or.inl hs
      · exact Or.inr ⟨j, List.mem_cons_of_mem job hj, hju⟩

/-- C1: across two consecutive runs, the second run's notification list never
repeats a url notified by the first run, whatever the second run's adapters
return; with the same fixed posting set on both runs the second notification
list is empty; and the dedup loop is order-preserving over its input. -/
theorem claim_C1_no_repeat_across_consecutive_runs :
    ∀ (scraped1 scraped2 : List Job) (seen0 : Finset String) (ok1 ok2 : Bool),
      (∀ j2 ∈ (run_daily_scrape_async scraped2
          (run_daily_scrape_async scraped1 seen0 ok1).seenOut ok2).newJobs,
        ∀ j1 ∈ (run_daily_scrape_async scraped1 seen0 ok1).newJobs, j2.url ≠ j1.url) ∧
      (scraped2 = scraped1 →
        (run_daily_scrape_async scraped2
          (run_daily_scrape_async scraped1 seen0 ok1).seenOut ok2).newJobs = []) ∧
      (∀ (l : List Job) (s : Finset String), (dedupFilterNew l s).1.Sublist l) := by
  intro scraped1 scraped2 seen0 ok1 ok2
  refine ⟨?_, ?_, fun l s => dedupFilterNew_sublist l s⟩
  · intro j2 hj2 j1 hj1 hurl
    have h2 : j2.url ∉ (run_daily_scrape_async scraped1 seen0 ok1).seenOut :=
      dedupFilterNew_kept_not_seen _ _ _ hj2
    have h1 : j1.url ∈ (run_daily_scrape_async scraped1 seen0 ok1).seenOut := by
      have hs := dedupFilterNew_sublist
        (scraped1.filter fun job => decide (job.priority ≠ JobPriority.BLACKLISTED)) seen0
      exact dedupFilterNew_url_mem_out _ _ _ (hs.mem hj1)
    exact h2 (hurl ▸ h1)
  · rintro rfl
    exact dedupFilterNew_all_seen _ _ fun j hj =>
      dedupFilterNew_url_mem_out _ _ _ hj

/-- C2: in every run the updated seen set is persisted exactly once, the
persist event precedes every notification attempt, and the persisted set does
not depend on whether the notification boundary succeeds. -/
theorem claim_C2_persist_once_and_before_notify :
    ∀ (scraped : List Job) (seen0 : Finset String) (ok : Bool),
      (∃ pre post,
        (run_daily_scrape_async scraped seen0 ok).events
          = pre ++ RunEvent.persistSeen (run_daily_scrape_async scraped seen0 ok).seenOut :: post ∧
        (∀ e ∈ pre, isPersistEv e = false ∧ isNotifyEv e = false) ∧
        (∀ e ∈ post, isPersistEv e = false)) ∧
      (run_daily_scrape_async scraped seen0 true).seenOut
        = (run_daily_scrape_async scraped seen0 false).seenOut := by
  intro scraped seen0 ok
  refine ⟨?_, rfl⟩
  refine ⟨[RunEvent.loadSeen seen0],
    (if (run_daily_scrape_async scraped seen0 ok).newJobs.isEmpty then []
     else [RunEvent.notifyAttempt (run_daily_scrape_async scraped seen0 ok).newJobs ok]),
    rfl, ?_, ?_⟩
  · intro e he
    rcases List.mem_singleton.mp he with rfl
    exact ⟨rfl, rfl⟩
  · intro e he
    split at he
    · simp at he
    · rcases List.mem_singleton.mp he with rfl
      rfl

/-- C9: `load_seen_jobs` returns the empty set both when `seen_jobs.json` is
absent and when reading or parsing it raises; otherwise it returns exactly the
set of url strings stored. -/
theorem claim_C9_load_absent_or_failing_is_empty :
    ∀ (parseJson : String → Option (List String)) (readResult : Option String)
      (content : String) (urls : List String),
      (load_seen_jobs false readResult parseJson = ∅) ∧
      (load_seen_jobs true none parseJson = ∅) ∧
      (parseJson content = none → load_seen_jobs true (some content) parseJson = ∅) ∧
      (parseJson content = some urls →
        load_seen_jobs true (some content) parseJson = urls.toFinset) := by
  intro parseJson readResult content urls
  refine ⟨rfl, rfl, ?_, ?_⟩ <;> intro h <;> simp [load_seen_jobs, h]

/-! ## save_seen_jobs as file operations (src/main.py lines 991-999)

`save_seen_jobs` does `open('seen_jobs.json', 'w')` — which truncates the
file in place — and then `json.dump(list(seen_urls), f, indent=2)`.  We model
the write as the sequence of file-system operations it performs and the
states a concurrent reader can observe between them. -/

/-- The durable dedup store's path. -/
def seenJobsFile : String := "seen_jobs.json"

/-- One file-system operation performed by `save_seen_jobs`. -/
inductive FileOp where
  | truncateFile (path : String)
  | appendFile (path : String) (content : String)
deriving DecidableEq

/-- `json.dump(list(urls), f, indent=2)` output for a list of url strings
(urls contain no characters needing JSON escaping). -/
def jsonArray (urls : List String) : String :=
  match urls with
  | [] => "[]"
  | _ => "[\n" ++ String.intercalate ",\n"
      (urls.map fun u => "  \"" ++ u ++ "\"") ++ "\n]"

/-- `save_seen_jobs` (src/main.py lines 991-999): open the store for writing
(truncating it) and write the serialized list into it.  No temporary file and
no rename is involved. -/
def save_seen_jobs_ops (seen_urls : List String) : List FileOp :=
  [FileOp.truncateFile seenJobsFile,
   FileOp.appendFile seenJobsFile (jsonArray seen_urls)]

/-- Contents of `target` after one operation. -/
def applyFileOp (target : String) (cur : String) : FileOp → String
  | FileOp.truncateFile p => if p = target then "" else cur
  | FileOp.appendFile p c => if p = target then cur ++ c else cur

/-- All contents of `target` a reader opening it at any point can observe:
before, between, and after the operations. -/
def observableStates (target initial : String) (ops : List FileOp) : List String :=
  ops.scanl (applyFileOp target) initial

/-- Modelled from the spec: `persist` replaces the prior contents "atomically
enough that a reader never observes a partially-written set (write-to-temp-
then-replace, or equivalent)" — every observable state of the store file is
either the prior contents or the final contents. -/
def specAtomicReplace (initial final : String) (ops : List FileOp) : Prop :=
  ∀ st ∈ observableStates seenJobsFile initial ops, st = initial ∨ st = final

/-- A serialized seen set is never the empty string. -/
theorem jsonArray_ne_empty (urls : List String) : jsonArray urls ≠ "" := by
  cases urls with
  | nil => decide
  | cons u rest =>
    intro h
    have hd := congrArg String.data h
    rw [jsonArray] at hd
    simp only [String.data_append] at hd
    · simp at hd
    · exact fun hh => List.noConfusion hh

/-- C3 counterexample: at the concrete prior store `["https://a"]` and input
set `["https://a", "https://b"]`, a reader between the truncate and the write
observes the empty file, which is neither the prior nor the final contents. -/
theorem claim_C3_counterexample_truncate_observable :
    ¬ specAtomicReplace (jsonArray ["https://a"])
        (jsonArray ["https://a", "https://b"])
        (save_seen_jobs_ops ["https://a", "https://b"]) := by
  intro h
  have hmem : "" ∈ observableStates seenJobsFile (jsonArray ["https://a"])
      (save_seen_jobs_ops ["https://a", "https://b"]) := by
    simp [observableStates, save_seen_jobs_ops, applyFileOp, List.scanl]
  rcases h "" hmem with h1 | h1 <;> exact jsonArray_ne_empty _ h1.symm

/-- C3 amended: `save_seen_jobs` writes the store in place — truncate, then
write — so whenever the prior contents are non-empty a reader can observe an
intermediate state (the truncated empty file) that is neither the prior nor
the final contents; the write is not an atomic replace. -/
theorem claim_C3_persist_truncates_in_place :
    ∀ (seen_urls : List String) (initial : String), initial ≠ "" →
      observableStates seenJobsFile initial (save_seen_jobs_ops seen_urls)
        = [initial, "", jsonArray seen_urls] ∧
      ¬ specAtomicReplace initial (jsonArray seen_urls) (save_seen_jobs_ops seen_urls) := by
  intro seen_urls initial hne
  have hstates : observableStates seenJobsFile initial (save_seen_jobs_ops seen_urls)
      = [initial, "", jsonArray seen_urls] := by
    simp [observableStates, save_seen_jobs_ops, applyFileOp, List.scanl]
  refine ⟨hstates, fun h => ?_⟩
  have hmem : "" ∈ observableStates seenJobsFile initial (save_seen_jobs_ops seen_urls) := by
    rw [hstates]; simp
  rcases h "" hmem with h1 | h1
  · exact hne h1.symm
  · exact jsonArray_ne_empty _ h1.symm

/-- C3 witness: the amended statement at the prior contents `"old"` and input
set `["x"]`. -/
theorem claim_C3_persist_truncates_in_place_witness :
    observableStates seenJobsFile "old" (save_seen_jobs_ops ["x"])
      = ["old", "", jsonArray ["x"]] ∧
    ¬ specAtomicReplace "old" (jsonArray ["x"]) (save_seen_jobs_ops ["x"]) :=
  claim_C3_persist_truncates_in_place ["x"] "old" (by decide)

/-! ## acquire_lock (src/main.py lines 1002-1044)

The branch structure of `acquire_lock` over the outcomes of its file-system
calls: `firstCreateOk` is the initial `os.open(..., O_CREAT | O_EXCL)`,
`lockFileSeen` the `os.path.exists` check after it failed, `staleInfo` the
`os.path.getmtime` age computation (`checkErr` = it raised), `removeOk`
whether `os.remove` succeeds, `retryCreateOk` the retried exclusive create.
The second component counts the exclusive-create attempts made. -/

/-- Outcome of the stale-lock age computation. -/
inductive StaleInfo where
  | checkErr
  | age (seconds : Nat)
deriving DecidableEq

/-- `acquire_lock` (src/main.py lines 1002-1044): returns whether the lock was
acquired, paired with how many exclusive-create attempts were made. -/
def acquire_lock (firstCreateOk lockFileSeen : Bool) (staleInfo : StaleInfo)
    (removeOk retryCreateOk : Bool) : Bool × Nat :=
  if firstCreateOk then (true, 1)
  else if lockFileSeen then
    match staleInfo with
    | StaleInfo.checkErr => (false, 1)
    | StaleInfo.age lock_age =>
      if lock_age > 900 then
        if removeOk then
          (if retryCreateOk then (true, 2) else (false, 2))
        else (false, 1)
      else (false, 1)
  else (false, 1)

/-- C4: `acquire_lock` returns true iff the first exclusive create succeeds,
or the lock file exists with age strictly over 900 seconds, its removal
succeeds and the single retried create succeeds; every other case returns
false, and no path makes more than two create attempts (no waiting, no
further retries). -/
theorem claim_C4_acquire_lock_iff :
    ∀ (firstCreateOk lockFileSeen : Bool) (staleInfo : StaleInfo)
      (removeOk retryCreateOk : Bool),
      ((acquire_lock firstCreateOk lockFileSeen staleInfo removeOk retryCreateOk).1 = true ↔
        (firstCreateOk = true ∨
          (firstCreateOk = false ∧ lockFileSeen = true ∧
            (∃ seconds, staleInfo = StaleInfo.age seconds ∧ 900 < seconds) ∧
            removeOk = true ∧ retryCreateOk = true))) ∧
      (acquire_lock firstCreateOk lockFileSeen staleInfo removeOk retryCreateOk).2 ≤ 2 := by
  intro firstCreateOk lockFileSeen staleInfo removeOk retryCreateOk
  cases firstCreateOk <;> cases lockFileSeen <;>
    cases staleInfo with
    | checkErr => cases removeOk <;> cases retryCreateOk <;> simp [acquire_lock]
    | age seconds =>
      cases removeOk <;> cases retryCreateOk <;>
        by_cases h : 900 < seconds <;>
        simp [acquire_lock, h]

/-! ## The process entry point (src/main.py lines 1144-1172)

`main` calls `acquire_lock` itself, and then `run_daily_scrape` →
`run_daily_scrape_async`, whose first statement is another `acquire_lock`
(line 1060).  In a single-process world with no concurrent writer the
exclusive create succeeds exactly when the lock file is absent, the exists
check and `getmtime` reflect the true state, and `os.remove` succeeds; this
specializes `acquire_lock` to a deterministic transition on the lock file's
state. -/

/-- The lock file's state: `none` = absent, `some t` = created at time `t`. -/
structure FsState where
  lockMtime : Option Nat
deriving DecidableEq

/-- `acquire_lock` at wall-clock time `now` in the single-process world. -/
def fsAcquireLock (now : Nat) (s : FsState) : Bool × FsState :=
  match s.lockMtime with
  | none => (true, ⟨some now⟩)
  | some t => if now - t > 900 then (true, ⟨some now⟩) else (false, s)

/-- `release_lock` (src/main.py lines 1047-1054). -/
def fsReleaseLock (_ : FsState) : FsState := ⟨none⟩

/-- What the immediate `run_daily_scrape` invocation in `main` does. -/
inductive ImmediateRun where
  | fullPipeline
  | earlyExitLockHeld
  | notStarted
deriving DecidableEq

/-- `main`'s startup (src/main.py lines 1144-1153): `acquire_lock` at time
`t0`, and on success the immediate `run_daily_scrape()` call, whose body
(`run_daily_scrape_async`, line 1060) calls `acquire_lock` again at time `t1`
and runs the pipeline only if that succeeds, releasing the lock afterwards
(line 1136). -/
def mainImmediateRun (t0 t1 : Nat) (s0 : FsState) : ImmediateRun × FsState :=
  let r0 := fsAcquireLock t0 s0
  if r0.1 then
    let r1 := fsAcquireLock t1 r0.2
    if r1.1 then (ImmediateRun.fullPipeline, fsReleaseLock r1.2)
    else (ImmediateRun.earlyExitLockHeld, r1.2)
  else (ImmediateRun.notStarted, s0)

/-- C7 (code bug): starting with no pre-existing lock record (process start at
time 1000, the immediate run's own `acquire_lock` 5 seconds later), `main`'s
entry lock acquisition succeeds, but the immediate `run_daily_scrape_async`
invocation finds the just-created lock file (age 5 s ≤ 900 s) and exits at
lock acquisition as if another instance were active — the full pipeline is
not run, contrary to the claim. -/
theorem claim_C7_immediate_run_exits_at_lock :
    (fsAcquireLock 1000 ⟨none⟩).1 = true ∧
    (mainImmediateRun 1000 1005 ⟨none⟩).1 = ImmediateRun.earlyExitLockHeld ∧
    (mainImmediateRun 1000 1005 ⟨none⟩).1 ≠ ImmediateRun.fullPipeline := by
  refine ⟨rfl, rfl, ?_⟩
  decide

/-! ## Source adapters' element-to-Job mapping

Each parser's BeautifulSoup queries are abstracted into a record of the
extracted fragments (`none` = the query found nothing); the logic from the
extraction onward — defaults, url resolution, ranking, the blacklist drop —
is translated statement for statement. -/

/-- The common tail of every parser: rank the job and build the `Job`,
returning `None` when the priority is `BLACKLISTED`. -/
def mkRankedJob (title company url description source : String) : Option Job :=
  let pr := rank_job title description
  if pr.1 = JobPriority.BLACKLISTED then none
  else some ⟨title, company, url, pyTake description 300, source, pr.1, pr.2, none⟩

/-- The fragments `Web3CareerScraper.parse_job` extracts from a row element:
the `h2` text, the first link's `href`, the company element's text, the
description element's text, and the element's whole text. -/
structure Web3Element where
  h2Text : Option String
  firstHref : Option String
  companyText : Option String
  descText : Option String
  fullText : String
deriving DecidableEq

/-- `Web3CareerScraper.parse_job` (src/main.py lines 389-444). -/
def web3_parse_job (base_url source_name : String) (e : Web3Element) : Option Job :=
  match e.h2Text with
  | none => none
  | some title =>
    if title = "" ∨ title.length < 5 then none
    else match e.firstHref with
      | none => none
      | some url0 =>
        if url0 = "" then none
        else
          let url := if pyStartsWith url0 "http" then url0 else base_url ++ url0
          let company := e.companyText.getD "Unknown"
          let description0 := e.descText.getD ""
          let description := if description0 = "" then pyTake e.fullText 500 else description0
          mkRankedJob title company url description source_name

/-- The fragments `CryptoJobsListScraper.parse_job` extracts (same record also
fits `CryptocurrencyJobsScraper.parse_job`, which is identical): title
element text, first link `href` (when a link exists), company text,
description text, whole text. -/
structure CjlElement where
  titleText : Option String
  linkHref : Option String
  companyText : Option String
  descText : Option String
  fullText : String
deriving DecidableEq

/-- `CryptoJobsListScraper.parse_job` (src/main.py lines 508-555); `job_url`
is the optional parameter, `None` at the only call site. -/
def cjl_parse_job (base_url source_name : String) (e : CjlElement)
    (job_url : Option String) : Option Job :=
  match e.titleText with
  | none => none
  | some title =>
    if title = "" ∨ title.length < 5 then none
    else
      let url := match e.linkHref with
        | some href => if pyStartsWith href "http" then href else base_url ++ href
        | none => match job_url with
          | some ju => if ju = "" then base_url else ju
          | none => base_url
      let company := e.companyText.getD "Unknown"
      let description0 := e.descText.getD ""
      let description := if description0 = "" then pyTake e.fullText 500 else description0
      mkRankedJob title company url description source_name

/-- `CryptocurrencyJobsScraper.parse_job_from_h2` (src/main.py lines
632-672): carve company out of `Title @ Company` or `Title - Company`
patterns, use the (shortened) title as description, rank, drop blacklisted. -/
def ccj_parse_job_from_h2 (source_name : String) (title0 url : String) : Option Job :=
  if title0 = "" ∨ title0.length < 5 then none
  else
    let tc : String × String :=
      if strContains title0 "@" then
        let parts := pySplitOnChar '@' title0
        if parts.length > 1 then
          (pyStrip (parts.headD ""), pyStrip (parts.getLastD ""))
        else (title0, "Unknown")
      else if strContains title0 " - " then
        let p := splitFirstOn " - " title0
        (pyStrip p.1, pyStrip p.2)
      else (title0, "Unknown")
    mkRankedJob tc.1 tc.2 url (pyTake tc.1 300) source_name

/-- One `h2` heading processed by `CryptocurrencyJobsScraper.scrape`
(src/main.py lines 591-625): its stripped text and the `href` of the parent
or nearby link (`none` when no link is found or its `href` is falsy). -/
structure CcjH2 where
  titleText : String
  linkHref : Option String
deriving DecidableEq

/-- The per-heading body of `CryptocurrencyJobsScraper.scrape` (src/main.py
lines 591-622): filter noise headings, default the url to the site base when
no link is found, and delegate to `parse_job_from_h2`. -/
def ccj_scrape_item (base_url source_name : String) (e : CcjH2) : Option Job :=
  let title_text := e.titleText
  if title_text = "" ∨ title_text.length < 5 then none
  else if strContains (pyLower title_text) "talent collective"
      || strContains (pyLower title_text) "subscribe" then none
  else
    let url := match e.linkHref with
      | none => base_url
      | some href => if pyStartsWith href "http" then href else base_url ++ href
    ccj_parse_job_from_h2 source_name title_text url

/-- The hiring-intent keywords of `TelegramScraper.parse_job` (line 815). -/
def TELEGRAM_JOB_KEYWORDS : List String :=
  ["hiring", "role:", "salary", "position", "job", "looking for"]

/-- The company-extraction loop of `TelegramScraper.parse_job` (src/main.py
lines 835-841) over the first three lines, with `break` semantics. -/
def telegramCompanyScan (dflt : String) : List String → String
  | [] => dflt
  | line :: rest =>
    if strContains line "@" || strContains (pyLower line) "company:"
        || strContains (pyLower line) "at " then
      let parts := pySplitOnChar '@' line
      if parts.length > 1 then
        match pySplitWs (parts.getD 1 "") with
        | [] => dflt
        | w :: _ => w
      else dflt
    else telegramCompanyScan dflt rest

/-- The fallback url of `TelegramScraper.parse_job` (src/main.py line 830). -/
def telegramFallbackUrl : Option String → String
  | some c => "https://t.me/" ++ c
  | none => "https://t.me/job_crypto_eu"

/-- The fragments `TelegramScraper.parse_job` extracts from a message wrap:
the message-text div's stripped text (`none` = div missing) and the date
link's `href` (`none` = link or attribute missing).  `channel_name` is the
parser's second argument; the scraper always passes a non-empty channel name,
`none` models the falsy default. -/
structure TgElement where
  messageText : Option String
  dateHref : Option String
deriving DecidableEq

/-- `TelegramScraper.parse_job` (src/main.py lines 801-863). -/
def telegram_parse_job (e : TgElement) (channel_name : Option String) : Option Job :=
  match e.messageText with
  | none => none
  | some message_text =>
    if message_text = "" ∨ message_text.length < 10 then none
    else
      let text_lower := pyLower message_text
      if !(TELEGRAM_JOB_KEYWORDS.any fun k => strContains text_lower k) then none
      else
        let lines := pySplitOnChar '\n' message_text
        let title0 := pyStrip (lines.headD (pyTake message_text 100))
        let title := if title0.length > 150 then pyTake title0 150 ++ "..." else title0
        let url := match e.dateHref with
          | some href => if href = "" then telegramFallbackUrl channel_name else href
          | none => telegramFallbackUrl channel_name
        let companyDefault := match channel_name with
          | some c => "Telegram (" ++ c ++ ")"
          | none => "Telegram Channel"
        let company := telegramCompanyScan companyDefault (lines.take 3)
        let source := match channel_name with
          | some c => "Telegram (" ++ c ++ ")"
          | none => "Telegram Channels"
        mkRankedJob title company url (pyTake message_text 500) source

/-! ### No Blacklisted job crosses the classifier boundary -/

/-- A `Job` built by the parsers' common tail is never `BLACKLISTED`. -/
theorem mkRankedJob_not_blacklisted (title company url description source : String)
    (j : Job) (h : mkRankedJob title company url description source = some j) :
    j.priority ≠ JobPriority.BLACKLISTED := by
  unfold mkRankedJob at h
  by_cases hp : (rank_job title description).1 = JobPriority.BLACKLISTED
  · simp [hp] at h
  · simp only [hp, if_neg, ite_false] at h
    injection h with h
    rw [← h]
    exact hp

/-- `Web3CareerScraper.parse_job` never returns a blacklisted job. -/
theorem web3_parse_job_not_blacklisted (base_url source_name : String)
    (e : Web3Element) (j : Job) (h : web3_parse_job base_url source_name e = some j) :
    j.priority ≠ JobPriority.BLACKLISTED := by
  unfold web3_parse_job at h
  split at h
  case _ => exact Option.noConfusion h
  case _ =>
    split at h
    case _ => exact Option.noConfusion h
    case _ =>
      split at h
      case _ => exact Option.noConfusion h
      case _ =>
        split at h
        case _ => exact Option.noConfusion h
        case _ => exact mkRankedJob_not_blacklisted _ _ _ _ _ _ h

/-- `CryptoJobsListScraper.parse_job` never returns a blacklisted job. -/
theorem cjl_parse_job_not_blacklisted (base_url source_name : String)
    (e : CjlElement) (job_url : Option String) (j : Job)
    (h : cjl_parse_job base_url source_name e job_url = some j) :
    j.priority ≠ JobPriority.BLACKLISTED := by
  unfold cjl_parse_job at h
  split at h
  case _ => exact Option.noConfusion h
  case _ =>
    split at h
    case _ => exact Option.noConfusion h
    case _ => exact mkRankedJob_not_blacklisted _ _ _ _ _ _ h

/-- `CryptocurrencyJobsScraper.parse_job_from_h2` never returns a blacklisted
job. -/
theorem ccj_parse_job_from_h2_not_blacklisted (source_name title0 url : String)
    (j : Job) (h : ccj_parse_job_from_h2 source_name title0 url = some j) :
    j.priority ≠ JobPriority.BLACKLISTED := by
  unfold ccj_parse_job_from_h2 at h
  split at h
  case _ => exact Option.noConfusion h
  case _ => exact mkRankedJob_not_blacklisted _ _ _ _ _ _ h

/-- The `CryptocurrencyJobsScraper.scrape` per-heading body never yields a
blacklisted job. -/
theorem ccj_scrape_item_not_blacklisted (base_url source_name : String)
    (e : CcjH2) (j : Job) (h : ccj_scrape_item base_url source_name e = some j) :
    j.priority ≠ JobPriority.BLACKLISTED := by
  unfold ccj_scrape_item at h
  dsimp only at h
  split at h
  case _ => exact Option.noConfusion h
  case _ =>
    split at h
    case _ => exact Option.noConfusion h
    case _ => exact ccj_parse_job_from_h2_not_blacklisted _ _ _ _ h

/-- `TelegramScraper.parse_job` never returns a blacklisted job. -/
theorem telegram_parse_job_not_blacklisted (e : TgElement)
    (channel_name : Option String) (j : Job)
    (h : telegram_parse_job e channel_name = some j) :
    j.priority ≠ JobPriority.BLACKLISTED := by
  unfold telegram_parse_job at h
  dsimp only at h
  split at h
  case _ => exact Option.noConfusion h
  case _ =>
    split at h
    case _ => exact Option.noConfusion h
    case _ =>
      split at h
      case _ => exact Option.noConfusion h
      case _ => exact mkRankedJob_not_blacklisted _ _ _ _ _ _ h

/-- C8: no `BLACKLISTED` job is ever emitted past the classifier boundary:
every adapter's parse function returns `None` when `rank_job` yields
`BLACKLISTED`; and in the orchestrator no blacklisted job reaches the
notification list, and every url added to the seen set during a run belongs
to a non-blacklisted scraped job. -/
theorem claim_C8_blacklisted_never_leaves_classifier :
    (∀ (base_url source_name : String) (e : Web3Element) (j : Job),
      web3_parse_job base_url source_name e = some j →
        j.priority ≠ JobPriority.BLACKLISTED) ∧
    (∀ (base_url source_name : String) (e : CjlElement) (job_url : Option String) (j : Job),
      cjl_parse_job base_url source_name e job_url = some j →
        j.priority ≠ JobPriority.BLACKLISTED) ∧
    (∀ (source_name title0 url : String) (j : Job),
      ccj_parse_job_from_h2 source_name title0 url = some j →
        j.priority ≠ JobPriority.BLACKLISTED) ∧
    (∀ (base_url source_name : String) (e : CcjH2) (j : Job),
      ccj_scrape_item base_url source_name e = some j →
        j.priority ≠ JobPriority.BLACKLISTED) ∧
    (∀ (e : TgElement) (channel_name : Option String) (j : Job),
      telegram_parse_job e channel_name = some j →
        j.priority ≠ JobPriority.BLACKLISTED) ∧
    (∀ (scraped : List Job) (seen0 : Finset String) (ok : Bool),
      (∀ j ∈ (run_daily_scrape_async scraped seen0 ok).newJobs,
        j.priority ≠ JobPriority.BLACKLISTED) ∧
      (∀ u ∈ (run_daily_scrape_async scraped seen0 ok).seenOut,
        u ∈ seen0 ∨ ∃ j ∈ scraped, j.url = u ∧ j.priority ≠ JobPriority.BLACKLISTED)) := by
  refine ⟨web3_parse_job_not_blacklisted, cjl_parse_job_not_blacklisted,
    ccj_parse_job_from_h2_not_blacklisted, ccj_scrape_item_not_blacklisted,
    telegram_parse_job_not_blacklisted, ?_⟩
  intro scraped seen0 ok
  constructor
  · intro j hj
    have hsub := dedupFilterNew_sublist
      (scraped.filter fun job => decide (job.priority ≠ JobPriority.BLACKLISTED)) seen0
    have hmem := List.mem_filter.mp (hsub.subset hj)
    exact of_decide_eq_true hmem.2
  · intro u hu
    rcases dedupFilterNew_out_mem _ _ _ hu with hs | ⟨j, hj, hju⟩
    · exact Or.inl hs
    · have hmem := List.mem_filter.mp hj
      exact Or.inr ⟨j, hmem.1, hju, of_decide_eq_true hmem.2⟩

/-! ### Url-fallback collisions (C10) -/

/-- A Telegram message with no date link, first shape. -/
def tgMsgElem1 : TgElement := ⟨some "Job opening one\nPing us today", none⟩

/-- A different Telegram message, also with no date link. -/
def tgMsgElem2 : TgElement := ⟨some "Job opening two\nPing us today", none⟩

/-- A CryptocurrencyJobs `h2` heading with no nearby link. -/
def ccjHeading1 : CcjH2 := ⟨"Backend Engineer", none⟩

/-- A different CryptocurrencyJobs `h2` heading with no nearby link. -/
def ccjHeading2 : CcjH2 := ⟨"Frontend Engineer", none⟩

/-- C10: distinct raw elements parse to Jobs with equal url — two Telegram
messages lacking a date link both get the channel url, and two
CryptocurrencyJobs headings lacking a nearby link both get the site base
url — and the dedup loop then keeps only the first of each pair and drops
any job whose url is already seen. -/
theorem claim_C10_fallback_urls_collide_and_dedup_drops :
    ((telegram_parse_job tgMsgElem1 (some "job_crypto_eu")).map (fun j => j.title) ≠
      (telegram_parse_job tgMsgElem2 (some "job_crypto_eu")).map (fun j => j.title)) ∧
    ((telegram_parse_job tgMsgElem1 (some "job_crypto_eu")).map (fun j => j.url)
      = some "https://t.me/job_crypto_eu") ∧
    ((telegram_parse_job tgMsgElem2 (some "job_crypto_eu")).map (fun j => j.url)
      = some "https://t.me/job_crypto_eu") ∧
    ((dedupFilterNew ((telegram_parse_job tgMsgElem1 (some "job_crypto_eu")).toList ++
        (telegram_parse_job tgMsgElem2 (some "job_crypto_eu")).toList) ∅).1
      = (telegram_parse_job tgMsgElem1 (some "job_crypto_eu")).toList) ∧
    ((ccj_scrape_item "https://cryptocurrencyjobs.co" "CryptocurrencyJobs.co" ccjHeading1).map
        (fun j => j.title) ≠
      (ccj_scrape_item "https://cryptocurrencyjobs.co" "CryptocurrencyJobs.co" ccjHeading2).map
        (fun j => j.title)) ∧
    ((ccj_scrape_item "https://cryptocurrencyjobs.co" "CryptocurrencyJobs.co" ccjHeading1).map
        (fun j => j.url) = some "https://cryptocurrencyjobs.co") ∧
    ((ccj_scrape_item "https://cryptocurrencyjobs.co" "CryptocurrencyJobs.co" ccjHeading2).map
        (fun j => j.url) = some "https://cryptocurrencyjobs.co") ∧
    ((dedupFilterNew
        ((ccj_scrape_item "https://cryptocurrencyjobs.co" "CryptocurrencyJobs.co" ccjHeading1).toList ++
         (ccj_scrape_item "https://cryptocurrencyjobs.co" "CryptocurrencyJobs.co" ccjHeading2).toList) ∅).1
      = (ccj_scrape_item "https://cryptocurrencyjobs.co" "CryptocurrencyJobs.co" ccjHeading1).toList) ∧
    (∀ (j : Job) (l : List Job) (s : Finset String), j.url ∈ s → j ∉ (dedupFilterNew l s).1) := by
  refine ⟨by decide, by decide, by decide, by decide, by decide, by decide, by decide, by decide, ?_⟩
  intro j l s hs hj
  exact dedupFilterNew_kept_not_seen l s j hj hs

/-- Sanity anchors: the classifier on the spec's worked examples — the
blacklisted Solidity title, the two-facet DevOps posting that must not be a
perfect match, the three-facet one that must, and case/whitespace
insensitivity of the matcher. -/
theorem rank_job_spec_examples :
    (rank_job "Senior Solidity Developer, Linux, Python" "").1 = JobPriority.BLACKLISTED ∧
    (rank_job "Junior DevOps Engineer" "Manage Ubuntu servers").1 ≠ JobPriority.PERFECT_MATCH ∧
    (rank_job "Junior DevOps Engineer" "Manage Ubuntu servers, writes Bash scripts").1
      = JobPriority.PERFECT_MATCH ∧
    normalize_text "  LINUX  " = normalize_text "linux" :=
  ⟨by decide, by decide, by decide, by decide⟩
